import Mathlib

set_option linter.unnecessarySeqFocus false
set_option linter.unreachableTactic false
set_option linter.unusedTactic false
set_option maxRecDepth 4000

/-!
Verification of the srtm_reader library (SRTM `.hgt` elevation tile reader).

The development shallowly embeds the Rust sources `src/coords.rs`,
`src/resolutions.rs` and `src/tiles.rs`.  Conventions of the embedding:

* `f64` coordinate values are modelled as rationals `ℚ`; the Rust float
  operations used by the library (`trunc`, subtraction, multiplication by the
  small integer `extent`, comparisons, `as usize` casts) are modelled by the
  corresponding exact operations.  All concrete inputs appearing in theorems
  below are dyadic rationals on which the `f64` computations are exact, or
  idealised sample positions stated by the specification itself.
* Rust panics (failed `assert!`, arithmetic overflow, and the panic of
  `Coord::new` inside the sentinel diagnostic of `Tile::get`) and undefined
  behaviour (`to_int_unchecked` out of range) are modelled by the explicit
  error values `RtError.panic` and `RtError.ub` of an `Except` result; a
  panic unwinding out of `Tile::from_file` is `FfError.panic`.
* File-system effects of `Tile::from_file` are modelled by a record `HgtFile`
  holding the outcome of `File::open`, of `metadata()`, the metadata byte
  length, the file-name stem and the byte contents.
* Strings are modelled as `List Char` with explicit UTF-8 byte accounting
  where the code works on bytes: the stem parser checks the byte length and
  slices the stem at byte indices, panicking at a char-boundary violation;
  `utf8Len` and `byteSlice` model this, with `none` standing for the panic.
-/

deriving instance DecidableEq for Except

namespace Srtm

/-- Floor of a rational, written so that it evaluates (numerator divided by
denominator with euclidean integer division). -/
def ratFloorZ (q : ℚ) : ℤ := q.num / (q.den : ℤ)

/-- Ceiling of a rational, via the floor of the negation. -/
def ratCeilZ (q : ℚ) : ℤ := -(ratFloorZ (-q))

/-- Truncation of a rational toward zero, the model of `f64::trunc`. -/
def ratTruncZ (q : ℚ) : ℤ := if 0 ≤ q then ratFloorZ q else ratCeilZ q

/-- Truncation toward zero, returned as a rational (`f64::trunc` keeps `f64`). -/
def ratTrunc (q : ℚ) : ℚ := (ratTruncZ q : ℚ)

/-- Largest value of Rust's 64-bit `usize`. -/
def USIZE_MAX : ℕ := 2 ^ 64 - 1

/-- Model of the Rust cast `f as usize` for a finite `f : f64`: truncation
toward zero, saturating below at `0` and above at `usize::MAX`. -/
def rustAsUsize (q : ℚ) : ℕ :=
  if q < 0 then 0 else min (ratFloorZ q).toNat USIZE_MAX

lemma ratFloorZ_eq_floor (q : ℚ) : ratFloorZ q = ⌊q⌋ := (Rat.floor_def).symm

lemma ratCeilZ_eq_ceil (q : ℚ) : ratCeilZ q = ⌈q⌉ := by
  rw [ratCeilZ, ratFloorZ_eq_floor, Int.floor_neg, neg_neg]

lemma ratCeilZ_eq_neg_floor (q : ℚ) : ratCeilZ q = -⌊-q⌋ := by
  rw [ratCeilZ, ratFloorZ_eq_floor]

/-- Rows and columns of a standard SRTM1 file minus one (`src/resolutions.rs`,
constant `EXTENT`). -/
def EXTENT : ℕ := 3600

/-- The available resolutions of the SRTM data (`src/resolutions.rs`). -/
inductive Resolution
  | SRTM05
  | SRTM1
  | SRTM3
deriving DecidableEq, Repr

/-- Number of rows and columns of an SRTM file (`Resolution::extent`). -/
def Resolution.extent (r : Resolution) : ℕ :=
  1 + (match r with
       | .SRTM05 => EXTENT * 2
       | .SRTM1 => EXTENT
       | .SRTM3 => EXTENT / 3)

/-- Total number of elevation samples in a file (`Resolution::total_len`). -/
def Resolution.total_len (r : Resolution) : ℕ := r.extent ^ 2

/-- Model of `impl TryFrom<u64> for Resolution`: exact match of the byte
length against each variant's `total_len() * 2`. -/
def Resolution.tryFrom (len : ℕ) : Except Unit Resolution :=
  if len = Resolution.SRTM05.total_len * 2 then .ok .SRTM05
  else if len = Resolution.SRTM1.total_len * 2 then .ok .SRTM1
  else if len = Resolution.SRTM3.total_len * 2 then .ok .SRTM3
  else .error ()

/-- Coordinates (`src/coords.rs`): latitude and longitude in degrees. -/
structure Coord where
  lat : ℚ
  lon : ℚ
deriving DecidableEq, Repr

/-- Model of `Coord::opt_new`: range-validated construction. -/
def Coord.opt_new (lat lon : ℚ) : Option Coord :=
  if -90 ≤ lat ∧ lat ≤ 90 ∧ -180 ≤ lon ∧ lon ≤ 180 then some ⟨lat, lon⟩
  else none

/-- Model of `Coord::new`: the panicking constructor; the panic on an
out-of-range pair is modelled by `none`. -/
def Coord.new (lat lon : ℚ) : Option Coord := Coord.opt_new lat lon

/-- Model of `Coord::with_lat`. -/
def Coord.with_lat (c : Coord) (lat : ℚ) : Option Coord := Coord.new lat c.lon

/-- Model of `Coord::with_lon`. -/
def Coord.with_lon (c : Coord) (lon : ℚ) : Option Coord := Coord.new c.lat lon

/-- Model of `Coord::add_to_lat`. -/
def Coord.add_to_lat (c : Coord) (d : ℚ) : Option Coord :=
  c.with_lat (c.lat + d)

/-- Model of `Coord::add_to_lon`. -/
def Coord.add_to_lon (c : Coord) (d : ℚ) : Option Coord :=
  c.with_lon (c.lon + d)

/-- Model of `impl From<(F1, F2)> for Coord`: stores the raw values with no
range validation. -/
def Coord.fromPair (lat lon : ℚ) : Coord := ⟨lat, lon⟩

/-- Model of `Coord::trunc`, which truncates via `to_int_unchecked::<i8>` and
`to_int_unchecked::<i16>`.  The cast is undefined behaviour when the truncated
value does not fit the target type; this is modelled by `none`. -/
def Coord.trunc (c : Coord) : Option (ℤ × ℤ) :=
  let la := ratTruncZ c.lat
  let lo := ratTruncZ c.lon
  if -128 ≤ la ∧ la ≤ 127 ∧ -32768 ≤ lo ∧ lo ≤ 32767 then some (la, lo)
  else none

/-- Decimal rendering of a natural number, the model of Rust's `Display`
formatting of a non-negative integer. -/
def natDecimal (n : ℕ) : List Char := Nat.toDigits 10 n

/-- Model of `Coord::get_filename` (`src/coords.rs`).  It calls the unchecked
`Coord::trunc` and `i8::abs` / `i16::abs`; undefined behaviour or an abs
overflow panic is modelled by `none` (neither can occur for an in-range
coordinate). -/
def Coord.get_filename (c : Coord) : Option (List Char) :=
  let latCh : Char := if 0 ≤ c.lat then 'N' else 'S'
  let lonCh : Char := if 0 ≤ c.lon then 'E' else 'W'
  match c.trunc with
  | none => none
  | some (la, lo) =>
    if la = -128 ∨ lo = -32768 then none
    else
      let laA := la.natAbs
      let loA := lo.natAbs
      some (latCh :: ((if laA < 10 then ['0'] else []) ++ natDecimal laA
        ++ lonCh :: ((if loA < 10 then ['0', '0']
                      else if loA < 100 then ['0'] else []) ++ natDecimal loA
        ++ ['.', 'h', 'g', 't'])))

/-- Digit-string parser underlying Rust's `str::parse::<iN>`: a non-empty
string of ASCII decimal digits, read as a natural number. -/
def parseDigits (l : List Char) : Option ℕ :=
  if l ≠ [] ∧ l.all Char.isDigit then
    some (l.foldl (fun acc c => acc * 10 + (c.toNat - 48)) 0)
  else none

/-- Signed-integer grammar of Rust's `str::parse::<iN>`: an optional leading
sign followed by a non-empty run of ASCII digits. -/
def parseSigned (l : List Char) : Option ℤ :=
  match l with
  | '+' :: rest => (parseDigits rest).map fun n => (n : ℤ)
  | '-' :: rest => (parseDigits rest).map fun n => -(n : ℤ)
  | rest => (parseDigits rest).map fun n => (n : ℤ)

/-- Model of `str::parse::<i8>`: the signed grammar with the `i8` range check
(Rust rejects on overflow while accumulating; over these widths that is the
same as a final range check). -/
def parseI8 (l : List Char) : Option ℤ :=
  (parseSigned l).bind fun v =>
    if -128 ≤ v ∧ v ≤ 127 then some v else none

/-- Model of `str::parse::<i16>`. -/
def parseI16 (l : List Char) : Option ℤ :=
  (parseSigned l).bind fun v =>
    if -32768 ≤ v ∧ v ≤ 32767 then some v else none

/-- UTF-8 byte length of a string, the model of `str::len`. -/
def utf8Len (l : List Char) : ℕ := (l.map Char.utf8Size).sum

/-- Drop the chars making up the first `n` UTF-8 bytes; `none` when byte
index `n` is not a char boundary or lies past the end (a byte-slice panic). -/
def dropBytes : List Char → ℕ → Option (List Char)
  | l, 0 => some l
  | [], _ + 1 => none
  | c :: rest, n + 1 =>
    if c.utf8Size ≤ n + 1 then dropBytes rest (n + 1 - c.utf8Size) else none

/-- Take the chars making up the first `n` UTF-8 bytes; `none` when byte
index `n` is not a char boundary or lies past the end (a byte-slice panic). -/
def takeBytes : List Char → ℕ → Option (List Char)
  | _, 0 => some []
  | [], _ + 1 => none
  | c :: rest, n + 1 =>
    if c.utf8Size ≤ n + 1 then (takeBytes rest (n + 1 - c.utf8Size)).map (c :: ·)
    else none

/-- Model of the Rust byte slice `&s[a..b]`: defined exactly when both byte
indices are char boundaries inside the string, a panic (`none`) otherwise. -/
def byteSlice (l : List Char) (a b : ℕ) : Option (List Char) :=
  (dropBytes l a).bind fun l2 => takeBytes l2 (b - a)

/-- Outcome of a failed stem parse: `err` models the `Err(ParseLatLong)`
return, `panic` a byte-slice panic at a char-boundary violation. -/
inductive StemFail
  | err
  | panic
deriving DecidableEq, Repr

/-- Model of `Tile::get_lat_lon` (`src/tiles.rs`) applied to a file-name
stem.  Checks the UTF-8 byte length, reads the latitude sign from the first
char (`'N'` gives `+1`, anything else `-1`), parses byte slice `[1..3]` as
an `i8`, reads the longitude sign from the fourth char (`'E'` gives `+1`,
anything else `-1`, a missing fourth char an error through `?`), and parses
byte slice `[4..7]` as an `i16`.  The byte slices panic when a multi-byte
char crosses the boundary. -/
def get_lat_lon (desc : List Char) : Except StemFail (ℤ × ℤ) :=
  if utf8Len desc ≠ 7 then .error .err
  else
    match desc.get? 0 with
    | none => .error .err
    | some ch0 =>
      let latSign : ℤ := if ch0 = 'N' then 1 else -1
      match byteSlice desc 1 3 with
      | none => .error .panic
      | some s1 =>
        match parseI8 s1 with
        | none => .error .err
        | some la =>
          match desc.get? 3 with
          | none => .error .err
          | some ch3 =>
            let lonSign : ℤ := if ch3 = 'E' then 1 else -1
            match byteSlice desc 4 7 with
            | none => .error .panic
            | some s2 =>
              match parseI16 s2 with
              | none => .error .err
              | some lo => .ok (latSign * la, lonSign * lo)

/-- Model of `Path::file_stem` for a plain file name: the part before the
last dot, the whole name when there is no dot.  (The Rust special case of a
name whose only dot is the leading one does not arise for the generated
`.hgt` names.) -/
def fileStem (l : List Char) : List Char :=
  if '.' ∈ l then ((l.reverse.dropWhile (fun c => c ≠ '.')).tail).reverse
  else l

/-- Run-time failures of the tile lookup: a failed `assert!` (`panic`) or
undefined behaviour of an unchecked cast (`ub`). -/
inductive RtError
  | panic
  | ub
deriving DecidableEq, Repr

/-- The SRTM tile (`src/tiles.rs`): geographic reference corner, resolution
and decoded row-major elevation samples.  `latitude` is an `i8`, `longitude`
an `i16` and the samples are `i16` in Rust; they are modelled as integers. -/
structure Tile where
  latitude : ℤ
  longitude : ℤ
  resolution : Resolution
  data : List ℤ
deriving DecidableEq, Repr

/-- Model of `Tile::new`. -/
def Tile.new (lat lon : ℤ) (res : Resolution) (data : List ℤ) : Tile :=
  ⟨lat, lon, res, data⟩

/-- Model of `Tile::idx`: the row-major index `y * extent + x`, guarded by the
assertion `x < extent && y < extent`. -/
def Tile.idx (t : Tile) (x y : ℕ) : Except RtError ℕ :=
  if x < t.resolution.extent ∧ y < t.resolution.extent then
    .ok (y * t.resolution.extent + x)
  else .error .panic

/-- Model of `Tile::get_at_offset`: `self.data.get(self.idx(x, y))`. -/
def Tile.get_at_offset (t : Tile) (x y : ℕ) : Except RtError (Option ℤ) :=
  (t.idx x y).map fun i => t.data.get? i

/-- Model of `Tile::get_origin`: truncation toward zero of both components,
plus one on the latitude.  The Rust method takes `&self` but does not use it. -/
def Tile.get_origin (_t : Tile) (c : Coord) : Coord :=
  ⟨ratTrunc c.lat + 1, ratTrunc c.lon⟩

/-- Model of `Tile::get_offset`: the `(row, column)` pair obtained from the
origin by scaling with `extent` and casting `as usize`. -/
def Tile.get_offset (t : Tile) (c : Coord) : ℕ × ℕ :=
  let origin := t.get_origin c
  let extent : ℚ := (t.resolution.extent : ℚ)
  (rustAsUsize ((origin.lat - c.lat) * extent),
   rustAsUsize ((c.lon - origin.lon) * extent))

/-- Sentinel test of `Tile::get`: `-9999` or `i16::MIN`. -/
def isSentinel (e : ℤ) : Bool := e == -9999 || e == -32768

/-- Model of `Tile::get` (`src/tiles.rs`): compute the offset, truncate the
coordinate (undefined behaviour surfaces here), check the two containment
assertions, read the sample through `get_at_offset`, and filter the sentinel
values to `none`.  In the sentinel branch the diagnostic message evaluates
`Coord::new(self.latitude, self.longitude).get_filename()`, which panics
when the stored corner is outside the valid coordinate range (and
`get_filename` itself can panic on `abs` overflow); only then is `none`
returned. -/
def Tile.get (t : Tile) (c : Coord) : Except RtError (Option ℤ) :=
  let offset := t.get_offset c
  match c.trunc with
  | none => .error .ub
  | some (la, lo) =>
    if ¬ (t.latitude ≤ la) then .error .panic
    else if ¬ (t.longitude ≤ lo) then .error .panic
    else
      match t.get_at_offset offset.2 offset.1 with
      | .error e => .error e
      | .ok elev =>
        if (match elev with
            | some e => isSentinel e
            | none => false) then
          match Coord.new (t.latitude : ℚ) (t.longitude : ℚ) with
          | none => .error .panic
          | some corner =>
            match corner.get_filename with
            | none => .error .panic
            | some _ => .ok none
        else .ok elev

/-- Big-endian decoding of two bytes as an `i16` (`i16::from_be_bytes`). -/
def beI16 (b1 b2 : ℕ) : ℤ :=
  let v := b1 % 256 * 256 + b2 % 256
  if v < 32768 then (v : ℤ) else (v : ℤ) - 65536

/-- Model of `buffer.chunks_exact(2)` followed by `i16::from_be_bytes` on each
chunk: decode consecutive byte pairs, dropping a trailing odd byte. -/
def decodePairs : List ℕ → List ℤ
  | b1 :: b2 :: rest => beI16 b1 b2 :: decodePairs rest
  | _ => []

/-- Model of `Tile::parse_hgt`: `read_exact` of `total_len * 2` bytes (an
error on a short file) followed by big-endian pair decoding. -/
def Tile.parse_hgt (bytes : List ℕ) (res : Resolution) : Except Unit (List ℤ) :=
  if bytes.length < res.total_len * 2 then .error ()
  else .ok (decodePairs (bytes.take (res.total_len * 2)))

/-- Error kind returned by `Tile::from_file`.  The enumeration is used
throughout `src/tiles.rs` (`NotFound`, `Filesize`, `ParseLatLong`, `Read`);
its declaration sits outside the given sources and is reconstructed from
those uses and from spec section 7. -/
inductive Error
  | NotFound
  | ParseLatLong
  | Filesize
  | Read
deriving DecidableEq, Repr

/-- Result of `Tile::from_file` as seen by its caller: an `Err` holding a
value of the library's `Error` enumeration, or a panic unwinding out of the
call (reachable through the stem parser's byte-slice panics). -/
inductive FfError
  | err (e : Error)
  | panic
deriving DecidableEq, Repr

/-- File-system view consumed by `Tile::from_file`: whether `File::open`
succeeds, whether `metadata()` succeeds, the metadata byte length, the
file-name stem, and the readable byte contents. -/
structure HgtFile where
  openOk : Bool
  metaOk : Bool
  byteLen : ℕ
  stem : List Char
  bytes : List ℕ

/-- Model of `Tile::from_file` (`src/tiles.rs`): open the file (`NotFound`),
stat it (`Filesize`), infer the resolution from the byte length (`Filesize`),
parse the stem (`ParseLatLong` on an `Err` return, an unwinding panic on a
byte-slice panic), decode the body (`Read`). -/
def Tile.from_file (f : HgtFile) : Except FfError Tile :=
  if ¬ f.openOk then .error (.err .NotFound)
  else if ¬ f.metaOk then .error (.err .Filesize)
  else
    match Resolution.tryFrom f.byteLen with
    | .error _ => .error (.err .Filesize)
    | .ok res =>
      match get_lat_lon f.stem with
      | .error .err => .error (.err .ParseLatLong)
      | .error .panic => .error .panic
      | .ok (la, lo) =>
        match Tile.parse_hgt f.bytes res with
        | .error _ => .error (.err .Read)
        | .ok data => .ok (Tile.new la lo res data)

/-- Definition following the specification's words for the lookup formula:
the origin latitude is `floor(coord.lat) + 1` (mathematical floor, as the
specification states, rather than the code's truncation toward zero). -/
def specOriginLat (c : Coord) : ℚ := (⌊c.lat⌋ : ℚ) + 1

/-- Definition following the specification's words: the origin longitude is
`floor(coord.lon)`. -/
def specOriginLon (c : Coord) : ℚ := (⌊c.lon⌋ : ℚ)

/-- Definition following the specification's words: the row is
`floor((origin.lat - coord.lat) * extent)`. -/
def specRow (c : Coord) (ext : ℕ) : ℤ := ⌊(specOriginLat c - c.lat) * ext⌋

/-- Definition following the specification's words: the column is
`floor((coord.lon - origin.lon) * extent)`. -/
def specCol (c : Coord) (ext : ℕ) : ℤ := ⌊(c.lon - specOriginLon c) * ext⌋

lemma ratTruncZ_of_nonneg {q : ℚ} (h : 0 ≤ q) : ratTruncZ q = ⌊q⌋ := by
  rw [ratTruncZ, if_pos h, ratFloorZ_eq_floor]

lemma ratTruncZ_int_mem {N : ℤ} {q : ℚ} (hN : 0 ≤ N) (h1 : (N : ℚ) ≤ q)
    (h2 : q < (N : ℚ) + 1) : ratTruncZ q = N := by
  have h0 : (0 : ℚ) ≤ q := le_trans (by exact_mod_cast hN) h1
  rw [ratTruncZ_of_nonneg h0]
  exact Int.floor_eq_iff.mpr ⟨h1, by push_cast; exact h2⟩

lemma rustAsUsize_zero : rustAsUsize 0 = 0 := by decide

lemma rustAsUsize_one : rustAsUsize 1 = 1 := by decide

lemma rustAsUsize_natCast {n : ℕ} (h : n ≤ USIZE_MAX) :
    rustAsUsize (n : ℚ) = n := by
  rw [rustAsUsize, if_neg (not_lt.mpr (Nat.cast_nonneg n)), ratFloorZ_eq_floor,
    Int.floor_natCast]
  omega

lemma rustAsUsize_mono {q r : ℚ} (hq : 0 ≤ q) (hqr : q ≤ r) :
    rustAsUsize q ≤ rustAsUsize r := by
  rw [rustAsUsize, rustAsUsize, if_neg (not_lt.mpr hq),
    if_neg (not_lt.mpr (le_trans hq hqr)), ratFloorZ_eq_floor, ratFloorZ_eq_floor]
  have hf := Int.floor_le_floor hqr
  have h0 : 0 ≤ ⌊q⌋ := Int.floor_nonneg.mpr hq
  omega

lemma rustAsUsize_lt_of_nonneg_of_lt {q : ℚ} {n : ℕ} (hq : 0 ≤ q)
    (h : q < (n : ℚ)) : rustAsUsize q < n := by
  rw [rustAsUsize, if_neg (not_lt.mpr hq), ratFloorZ_eq_floor]
  have h0 : 0 ≤ ⌊q⌋ := Int.floor_nonneg.mpr hq
  have hf : ⌊q⌋ < (n : ℤ) := Int.floor_lt.mpr (by exact_mod_cast h)
  have hn : 0 < n := by
    by_contra hc
    interval_cases n
    · simp at h
      exact absurd (lt_of_le_of_lt hq h) (lt_irrefl 0)
  omega

lemma extent_le_usize (r : Resolution) : r.extent ≤ USIZE_MAX := by
  cases r <;> decide

lemma extent_pos (r : Resolution) : 0 < r.extent := by
  cases r <;> decide

lemma ascii_utf8Size {c : Char} (h : c.toNat < 128) : c.utf8Size = 1 := by
  unfold Char.utf8Size
  rw [if_pos]
  change c.val.toNat ≤ (127 : UInt32).toNat
  have h127 : (127 : UInt32).toNat = 127 := rfl
  have hc : c.toNat = c.val.toNat := rfl
  omega

lemma utf8Len_ascii : ∀ {l : List Char},
    l.all (fun c => c.toNat < 128) = true → utf8Len l = l.length := by
  intro l
  induction l with
  | nil => intro _; rfl
  | cons c rest ih =>
    intro h
    simp only [List.all_cons, Bool.and_eq_true, decide_eq_true_eq] at h
    have hstep : utf8Len (c :: rest) = c.utf8Size + utf8Len rest := by
      simp [utf8Len]
    rw [hstep, ascii_utf8Size h.1, ih h.2, List.length_cons]
    omega

lemma ascii_drop {l : List Char} (h : l.all (fun c => c.toNat < 128) = true)
    (n : ℕ) : (l.drop n).all (fun c => c.toNat < 128) = true := by
  rw [List.all_eq_true] at h ⊢
  intro x hx
  exact h x (List.mem_of_mem_drop hx)

lemma dropBytes_ascii : ∀ (l : List Char),
    l.all (fun c => c.toNat < 128) = true → ∀ n : ℕ,
    dropBytes l n = if n ≤ l.length then some (l.drop n) else none := by
  intro l
  induction l with
  | nil =>
    intro _ n
    cases n with
    | zero => rfl
    | succ m => simp [dropBytes]
  | cons c rest ih =>
    intro h n
    simp only [List.all_cons, Bool.and_eq_true, decide_eq_true_eq] at h
    cases n with
    | zero => rfl
    | succ m =>
      simp only [dropBytes, ascii_utf8Size h.1]
      rw [if_pos (by omega), Nat.succ_sub_one, ih h.2 m]
      by_cases hm : m ≤ rest.length
      · rw [if_pos hm, if_pos (by simp [List.length_cons]; omega)]
        rfl
      · rw [if_neg hm, if_neg (by simp [List.length_cons]; omega)]

lemma takeBytes_ascii : ∀ (l : List Char),
    l.all (fun c => c.toNat < 128) = true → ∀ n : ℕ,
    takeBytes l n = if n ≤ l.length then some (l.take n) else none := by
  intro l
  induction l with
  | nil =>
    intro _ n
    cases n with
    | zero => rfl
    | succ m => simp [takeBytes]
  | cons c rest ih =>
    intro h n
    simp only [List.all_cons, Bool.and_eq_true, decide_eq_true_eq] at h
    cases n with
    | zero => rfl
    | succ m =>
      simp only [takeBytes, ascii_utf8Size h.1]
      rw [if_pos (by omega), Nat.succ_sub_one, ih h.2 m]
      by_cases hm : m ≤ rest.length
      · rw [if_pos hm, if_pos (by simp [List.length_cons]; omega)]
        rfl
      · rw [if_neg hm, if_neg (by simp [List.length_cons]; omega)]
        rfl

lemma byteSlice_ascii (l : List Char) (a b : ℕ)
    (h : l.all (fun c => c.toNat < 128) = true) (hab : a ≤ b)
    (hb : b ≤ l.length) :
    byteSlice l a b = some ((l.drop a).take (b - a)) := by
  unfold byteSlice
  rw [dropBytes_ascii l h a, if_pos (le_trans hab hb)]
  simp only [Option.some_bind]
  rw [takeBytes_ascii (l.drop a) (ascii_drop h a) (b - a),
    if_pos (by rw [List.length_drop]; omega)]

/-- Two-digit zero-padded decimal field, following the specification's words
for the filename format (zero-padded to width 2). -/
def pad2 (n : ℕ) : List Char :=
  List.replicate (2 - (natDecimal n).length) '0' ++ natDecimal n

/-- Three-digit zero-padded decimal field, following the specification's
words for the filename format (zero-padded to width 3). -/
def pad3 (n : ℕ) : List Char :=
  List.replicate (3 - (natDecimal n).length) '0' ++ natDecimal n

/-- Canonical file name as the specification words it: sign letter (`N` for
latitude at least 0, `E` for longitude at least 0), zero-padded truncated
absolute degree values of width 2 and 3, and the `.hgt` extension. -/
def canonicalFilename (c : Coord) : List Char :=
  (if 0 ≤ c.lat then 'N' else 'S')
    :: (pad2 (ratTruncZ c.lat).natAbs
      ++ (if 0 ≤ c.lon then 'E' else 'W')
        :: (pad3 (ratTruncZ c.lon).natAbs ++ ['.', 'h', 'g', 't']))

lemma pad2_eq_code : ∀ n < 100,
    (if n < 10 then ['0'] else ([] : List Char)) ++ natDecimal n = pad2 n := by
  decide

lemma pad3_eq_code : ∀ n < 181,
    (if n < 10 then ['0', '0'] else if n < 100 then ['0'] else ([] : List Char))
      ++ natDecimal n = pad3 n := by
  decide

lemma pad2_len : ∀ n < 100, (pad2 n).length = 2 := by decide

lemma pad3_len : ∀ n < 181, (pad3 n).length = 3 := by decide

lemma pad2_parse : ∀ n < 100, parseI8 (pad2 n) = some (n : ℤ) := by decide

lemma pad3_parse : ∀ n < 181, parseI16 (pad3 n) = some (n : ℤ) := by decide

lemma pad2_ascii : ∀ n < 100, (pad2 n).all (fun c => c.toNat < 128) = true := by
  decide

lemma pad3_ascii : ∀ n < 181, (pad3 n).all (fun c => c.toNat < 128) = true := by
  decide

lemma ratTruncZ_bounds (B : ℤ) (q : ℚ) (h1 : -(B : ℚ) ≤ q) (h2 : q ≤ (B : ℚ)) :
    -B ≤ ratTruncZ q ∧ ratTruncZ q ≤ B := by
  unfold ratTruncZ
  split_ifs with h0
  · rw [ratFloorZ_eq_floor]
    refine ⟨Int.le_floor.mpr (by push_cast; linarith), ?_⟩
    exact_mod_cast le_trans (Int.floor_le q) h2
  · rw [ratCeilZ_eq_ceil]
    refine ⟨?_, Int.ceil_le.mpr (by push_cast; linarith)⟩
    exact_mod_cast le_trans h1 (Int.le_ceil q)

lemma ratTruncZ_nonneg {q : ℚ} (h : 0 ≤ q) : 0 ≤ ratTruncZ q := by
  rw [ratTruncZ, if_pos h, ratFloorZ_eq_floor]
  exact Int.floor_nonneg.mpr h

lemma ratTruncZ_nonpos {q : ℚ} (h : ¬ 0 ≤ q) : ratTruncZ q ≤ 0 := by
  rw [ratTruncZ, if_neg h, ratCeilZ_eq_ceil]
  exact Int.ceil_le.mpr (by push_cast; linarith [not_le.mp h])

lemma trunc_of_bounds {la lo : ℚ} (h1 : -90 ≤ la) (h2 : la ≤ 90)
    (h3 : -180 ≤ lo) (h4 : lo ≤ 180) :
    (⟨la, lo⟩ : Coord).trunc = some (ratTruncZ la, ratTruncZ lo) := by
  have hA := ratTruncZ_bounds 90 la (by push_cast; linarith) (by push_cast; linarith)
  have hB := ratTruncZ_bounds 180 lo (by push_cast; linarith) (by push_cast; linarith)
  simp only [Coord.trunc]
  split_ifs with h
  · rfl
  · exact absurd ⟨by omega, by omega, by omega, by omega⟩ h

lemma get_filename_canonical {la lo : ℚ} (h1 : -90 ≤ la) (h2 : la ≤ 90)
    (h3 : -180 ≤ lo) (h4 : lo ≤ 180) :
    Coord.get_filename ⟨la, lo⟩ = some ((if 0 ≤ la then 'N' else 'S')
      :: (pad2 (ratTruncZ la).natAbs
        ++ (if 0 ≤ lo then 'E' else 'W')
          :: (pad3 (ratTruncZ lo).natAbs ++ ['.', 'h', 'g', 't']))) := by
  have hA := ratTruncZ_bounds 90 la (by push_cast; linarith) (by push_cast; linarith)
  have hB := ratTruncZ_bounds 180 lo (by push_cast; linarith) (by push_cast; linarith)
  have htr := trunc_of_bounds h1 h2 h3 h4
  unfold Coord.get_filename
  simp only [htr]
  rw [if_neg (show ¬ (ratTruncZ la = -128 ∨ ratTruncZ lo = -32768) by omega)]
  rw [pad3_eq_code (ratTruncZ lo).natAbs (by omega),
    pad2_eq_code (ratTruncZ la).natAbs (by omega)]

lemma fileStem_append_hgt (s : List Char) :
    fileStem (s ++ ['.', 'h', 'g', 't']) = s := by
  unfold fileStem
  rw [if_pos (by simp), List.reverse_append,
    show (['.', 'h', 'g', 't'] : List Char).reverse = ['t', 'g', 'h', '.'] from rfl,
    show (['t', 'g', 'h', '.'] : List Char) ++ s.reverse
      = 't' :: 'g' :: 'h' :: '.' :: s.reverse from rfl]
  rw [List.dropWhile_cons_of_pos (by decide), List.dropWhile_cons_of_pos (by decide),
    List.dropWhile_cons_of_pos (by decide), List.dropWhile_cons_of_neg (by decide)]
  simp

lemma get_lat_lon_explicit (L E : Char) (hL : L.toNat < 128) (hE : E.toNat < 128)
    (a b : ℕ) (ha : a < 100) (hb : b < 181) :
    get_lat_lon (L :: (pad2 a ++ E :: pad3 b))
      = .ok ((if L = 'N' then 1 else -1) * (a : ℤ),
             (if E = 'E' then 1 else -1) * (b : ℤ)) := by
  obtain ⟨c1, c2, hc⟩ := List.length_eq_two.mp (pad2_len a ha)
  obtain ⟨d1, d2, d3, hd⟩ := List.length_eq_three.mp (pad3_len b hb)
  have ha2 := pad2_ascii a ha
  have ha3 := pad3_ascii b hb
  have hp2 := pad2_parse a ha
  have hp3 := pad3_parse b hb
  rw [hc] at ha2 hp2
  rw [hd] at ha3 hp3
  simp only [List.all_cons, List.all_nil, Bool.and_eq_true, decide_eq_true_eq,
    Bool.and_true, and_true] at ha2 ha3
  have hdesc : (L :: (pad2 a ++ E :: pad3 b)) = [L, c1, c2, E, d1, d2, d3] := by
    rw [hc, hd]
    rfl
  rw [hdesc]
  have hall : ([L, c1, c2, E, d1, d2, d3]).all (fun c => c.toNat < 128) = true := by
    simp only [List.all_cons, List.all_nil, Bool.and_eq_true, decide_eq_true_eq,
      Bool.and_true, and_true]
    exact ⟨hL, ha2.1, ha2.2, hE, ha3.1, ha3.2.1, ha3.2.2⟩
  have hbs1 : byteSlice [L, c1, c2, E, d1, d2, d3] 1 3 = some [c1, c2] := by
    rw [byteSlice_ascii _ 1 3 hall (by omega) (by simp)]
    rfl
  have hbs2 : byteSlice [L, c1, c2, E, d1, d2, d3] 4 7 = some [d1, d2, d3] := by
    rw [byteSlice_ascii _ 4 7 hall (by omega) (by simp)]
    rfl
  unfold get_lat_lon
  rw [if_neg (by rw [utf8Len_ascii hall]; simp)]
  simp only [show ([L, c1, c2, E, d1, d2, d3] : List Char).get? 0 = some L from rfl,
    show ([L, c1, c2, E, d1, d2, d3] : List Char).get? 3 = some E from rfl,
    hbs1, hbs2, hp2, hp3]

lemma get_lat_lon_canonical (la lo : ℚ) (h1 : -90 ≤ la) (h2 : la ≤ 90)
    (h3 : -180 ≤ lo) (h4 : lo ≤ 180) :
    get_lat_lon ((if 0 ≤ la then 'N' else 'S')
      :: (pad2 (ratTruncZ la).natAbs
        ++ (if 0 ≤ lo then 'E' else 'W') :: pad3 (ratTruncZ lo).natAbs))
      = .ok (ratTruncZ la, ratTruncZ lo) := by
  have hA := ratTruncZ_bounds 90 la (by push_cast; linarith) (by push_cast; linarith)
  have hB := ratTruncZ_bounds 180 lo (by push_cast; linarith) (by push_cast; linarith)
  rw [get_lat_lon_explicit (if 0 ≤ la then 'N' else 'S') (if 0 ≤ lo then 'E' else 'W')
    (by split_ifs <;> decide) (by split_ifs <;> decide)
    (ratTruncZ la).natAbs (ratTruncZ lo).natAbs (by omega) (by omega)]
  have hlat : (if (if 0 ≤ la then 'N' else 'S') = 'N' then (1 : ℤ) else -1)
      * ((ratTruncZ la).natAbs : ℤ) = ratTruncZ la := by
    by_cases hs : 0 ≤ la
    · rw [if_pos hs, if_pos rfl]
      have := ratTruncZ_nonneg hs
      omega
    · rw [if_neg hs, if_neg (by decide)]
      have := ratTruncZ_nonpos hs
      omega
  have hlon : (if (if 0 ≤ lo then 'E' else 'W') = 'E' then (1 : ℤ) else -1)
      * ((ratTruncZ lo).natAbs : ℤ) = ratTruncZ lo := by
    by_cases hs : 0 ≤ lo
    · rw [if_pos hs, if_pos rfl]
      have := ratTruncZ_nonneg hs
      omega
    · rw [if_neg hs, if_neg (by decide)]
      have := ratTruncZ_nonpos hs
      omega
  rw [hlat, hlon]


lemma corner_new_eq {a b : ℤ} (h1 : -90 ≤ a) (h2 : a ≤ 90) (h3 : -180 ≤ b)
    (h4 : b ≤ 180) :
    Coord.new (a : ℚ) (b : ℚ) = some ⟨(a : ℚ), (b : ℚ)⟩ := by
  unfold Coord.new Coord.opt_new
  rw [if_pos]
  exact ⟨by exact_mod_cast h1, by exact_mod_cast h2, by exact_mod_cast h3,
    by exact_mod_cast h4⟩

lemma corner_new_none {a b : ℤ}
    (h : ¬ (-90 ≤ a ∧ a ≤ 90 ∧ -180 ≤ b ∧ b ≤ 180)) :
    Coord.new (a : ℚ) (b : ℚ) = none := by
  unfold Coord.new Coord.opt_new
  rw [if_neg]
  intro hc
  exact h ⟨by exact_mod_cast hc.1, by exact_mod_cast hc.2.1,
    by exact_mod_cast hc.2.2.1, by exact_mod_cast hc.2.2.2⟩

lemma corner_filename_ex {a b : ℤ} (h1 : -90 ≤ a) (h2 : a ≤ 90)
    (h3 : -180 ≤ b) (h4 : b ≤ 180) :
    ∃ s, Coord.get_filename ⟨(a : ℚ), (b : ℚ)⟩ = some s :=
  ⟨_, get_filename_canonical (by exact_mod_cast h1) (by exact_mod_cast h2)
    (by exact_mod_cast h3) (by exact_mod_cast h4)⟩

/-- Claim C1, counterexample: at latitude `-2.5` (longitude `0.5`, an SRTM3
tile) the specification's floor-based formula gives row `600`, while the
code's truncation-toward-zero origin gives row `1801`. -/
theorem claim_c1_counterexample :
    specRow ⟨Rat.divInt (-5) 2, Rat.divInt 1 2⟩ 1201 = 600
    ∧ ((Tile.mk (-3) 0 .SRTM3 []).get_offset ⟨Rat.divInt (-5) 2, Rat.divInt 1 2⟩).1 = 1801
    ∧ (1801 : ℤ) ≠ 600 := by
  refine ⟨?_, ?_, by decide⟩
  · norm_num [specRow, specOriginLat, Rat.divInt_eq_div]
  · norm_num [Tile.get_offset, Tile.get_origin, ratTrunc, ratTruncZ, Resolution.extent,
      EXTENT, rustAsUsize, ratFloorZ_eq_floor, ratCeilZ_eq_neg_floor, USIZE_MAX,
      Rat.divInt_eq_div] <;> decide

/-- Claim C1, amended: the origin uses truncation toward zero (not floor):
`origin.lat = trunc(coord.lat) + 1`, `origin.lon = trunc(coord.lon)`; the
offsets are the `as usize` casts (truncation toward zero, saturating at `0`)
of `(origin.lat - coord.lat) * extent` and `(coord.lon - origin.lon) *
extent`; when the coordinate truncates without undefined behaviour, the
containment assertions pass and both offsets are within the extent, the
sample is read at index `row * extent + col` of the row-major data array
(with the sentinel filter applied to the retrieved value); the tile's stored
corner must be a valid coordinate, since on a sentinel sample the diagnostic
readback `Coord::new(latitude, longitude)` panics otherwise. -/
theorem claim_c1 (t : Tile) (c : Coord) (la lo : ℤ)
    (hb1 : -90 ≤ t.latitude) (hb2 : t.latitude ≤ 90)
    (hb3 : -180 ≤ t.longitude) (hb4 : t.longitude ≤ 180)
    (htr : c.trunc = some (la, lo))
    (hlat : t.latitude ≤ la) (hlon : t.longitude ≤ lo)
    (hrow : rustAsUsize ((ratTrunc c.lat + 1 - c.lat) * (t.resolution.extent : ℚ))
      < t.resolution.extent)
    (hcol : rustAsUsize ((c.lon - ratTrunc c.lon) * (t.resolution.extent : ℚ))
      < t.resolution.extent) :
    t.get_offset c =
      (rustAsUsize ((ratTrunc c.lat + 1 - c.lat) * (t.resolution.extent : ℚ)),
       rustAsUsize ((c.lon - ratTrunc c.lon) * (t.resolution.extent : ℚ)))
    ∧ t.get c = .ok ((t.data.get?
        (rustAsUsize ((ratTrunc c.lat + 1 - c.lat) * (t.resolution.extent : ℚ))
            * t.resolution.extent
          + rustAsUsize ((c.lon - ratTrunc c.lon) * (t.resolution.extent : ℚ)))).bind
        fun e => if isSentinel e then none else some e) := by
  have hoff : t.get_offset c =
      (rustAsUsize ((ratTrunc c.lat + 1 - c.lat) * (t.resolution.extent : ℚ)),
       rustAsUsize ((c.lon - ratTrunc c.lon) * (t.resolution.extent : ℚ))) := rfl
  refine ⟨hoff, ?_⟩
  unfold Tile.get
  simp only [htr, hoff]
  rw [if_neg (not_not_intro hlat), if_neg (not_not_intro hlon)]
  unfold Tile.get_at_offset Tile.idx
  rw [if_pos ⟨hcol, hrow⟩]
  simp only [Except.map]
  rcases hget : t.data.get?
      (rustAsUsize ((ratTrunc c.lat + 1 - c.lat) * (t.resolution.extent : ℚ))
          * t.resolution.extent
        + rustAsUsize ((c.lon - ratTrunc c.lon) * (t.resolution.extent : ℚ)))
    with _ | e
  · simp
  · simp only [Option.bind_some]
    by_cases hs : isSentinel e
    · rw [if_pos hs]
      have hnew := corner_new_eq hb1 hb2 hb3 hb4
      obtain ⟨s, hsfn⟩ := corner_filename_ex hb1 hb2 hb3 hb4
      simp [hs, hnew, hsfn]
    · rw [if_neg hs]
      simp [hs]

/-- Claim C1, witness for the amended theorem: an SRTM3 tile at `(44, 15)`
holding one sample, queried half a sample below its northern edge, reads
index `0` and returns that sample. -/
theorem claim_c1_witness :
    (Tile.mk 44 15 .SRTM3 [258]).get ⟨Rat.divInt 108089 2402, 15⟩ = .ok (some 258) := by
  have h := claim_c1 (Tile.mk 44 15 .SRTM3 [258]) ⟨Rat.divInt 108089 2402, 15⟩ 44 15
    (by decide) (by decide) (by decide) (by decide)
    (by decide) (by decide) (by decide)
    (by norm_num [ratTrunc, ratTruncZ, rustAsUsize, ratFloorZ_eq_floor,
      ratCeilZ_eq_neg_floor, USIZE_MAX, Rat.divInt_eq_div, Resolution.extent, EXTENT])
    (by norm_num [ratTrunc, ratTruncZ, rustAsUsize, ratFloorZ_eq_floor,
      ratCeilZ_eq_neg_floor, USIZE_MAX, Rat.divInt_eq_div, Resolution.extent, EXTENT])
  rw [h.2]
  norm_num [ratTrunc, ratTruncZ, rustAsUsize, ratFloorZ_eq_floor,
    ratCeilZ_eq_neg_floor, USIZE_MAX, Rat.divInt_eq_div, Resolution.extent, EXTENT,
    isSentinel]

/-- Claim C2, counterexample: the coordinate `(45, 7.5)` lies exactly on the
northern edge of the tile at `(44, 7)`, but the code maps it to row `1201`
(the extent, one past the last row), not row `0`. -/
theorem claim_c2_counterexample :
    ((Tile.mk 44 7 .SRTM3 []).get_offset ⟨45, Rat.divInt 15 2⟩).1 = 1201
    ∧ (1201 : ℕ) ≠ 0 := by
  refine ⟨?_, by decide⟩
  norm_num [Tile.get_offset, Tile.get_origin, ratTrunc, ratTruncZ, Resolution.extent,
    EXTENT, rustAsUsize, ratFloorZ_eq_floor, ratCeilZ_eq_neg_floor, USIZE_MAX,
    Rat.divInt_eq_div] <;> decide

/-- Claim C2, amended: a coordinate exactly on a tile's western edge maps to
column `0`, and one arc-sample (one `extent`-th of a degree) below the
northern edge maps to row `1`; for non-negative latitudes the row mapping is
antitone in the latitude and strictly interior coordinates stay below the
extent (no overlap with the next tile); but a coordinate exactly on the
northern edge (integer latitude) maps to row `extent`, one past the last
row, and the bounds assertion then fails (a panic), rather than to row `0`. -/
theorem claim_c2 :
    (∀ (t : Tile) (c : Coord), c.lon = ratTrunc c.lon → (t.get_offset c).2 = 0)
    ∧ (∀ (t : Tile) (c : Coord), c.lat = ratTrunc c.lat →
        (t.get_offset c).1 = t.resolution.extent)
    ∧ (∀ (t : Tile) (c : Coord) (la lo : ℤ), c.lat = ratTrunc c.lat →
        c.trunc = some (la, lo) → t.latitude ≤ la → t.longitude ≤ lo →
        t.get c = .error .panic)
    ∧ (∀ (t : Tile) (N : ℤ), 0 ≤ N → ∀ lon : ℚ,
        (t.get_offset ⟨(N : ℚ) + 1 - 1 / (t.resolution.extent : ℚ), lon⟩).1 = 1)
    ∧ (∀ (t : Tile) (N : ℤ), 0 ≤ N → ∀ c c' : Coord,
        (N : ℚ) ≤ c.lat → c.lat ≤ c'.lat → c'.lat < (N : ℚ) + 1 →
        (t.get_offset c').1 ≤ (t.get_offset c).1)
    ∧ (∀ (t : Tile) (N : ℤ), 0 ≤ N → ∀ c : Coord,
        (N : ℚ) < c.lat → c.lat < (N : ℚ) + 1 →
        (t.get_offset c).1 < t.resolution.extent) := by
  have hcol0 : ∀ (t : Tile) (c : Coord), c.lon = ratTrunc c.lon →
      (t.get_offset c).2 = 0 := by
    intro t c h
    show rustAsUsize ((c.lon - ratTrunc c.lon) * (t.resolution.extent : ℚ)) = 0
    rw [← h, sub_self, zero_mul, rustAsUsize_zero]
  have hrowext : ∀ (t : Tile) (c : Coord), c.lat = ratTrunc c.lat →
      (t.get_offset c).1 = t.resolution.extent := by
    intro t c h
    show rustAsUsize ((ratTrunc c.lat + 1 - c.lat) * (t.resolution.extent : ℚ))
      = t.resolution.extent
    rw [← h]
    have : (c.lat + 1 - c.lat) = 1 := by ring
    rw [this, one_mul, rustAsUsize_natCast (extent_le_usize t.resolution)]
  refine ⟨hcol0, hrowext, ?_, ?_, ?_, ?_⟩
  · intro t c la lo hint htr hla hlo
    have hb := hrowext t c hint
    unfold Tile.get
    simp only [htr]
    rw [if_neg (not_not_intro hla), if_neg (not_not_intro hlo)]
    have : t.get_at_offset (t.get_offset c).2 (t.get_offset c).1 = .error .panic := by
      unfold Tile.get_at_offset Tile.idx
      rw [hb, if_neg (fun hcon => lt_irrefl _ hcon.2)]
      rfl
    rw [this]
  · intro t N hN lon
    have hext : (0 : ℚ) < (t.resolution.extent : ℚ) := by
      exact_mod_cast extent_pos t.resolution
    set e : ℚ := (t.resolution.extent : ℚ) with he
    have hinv0 : 0 < 1 / e := by positivity
    have hinv1 : 1 / e ≤ 1 := by
      rw [div_le_one hext, he]
      exact_mod_cast Nat.succ_le_of_lt (extent_pos t.resolution)
    have hmem1 : (N : ℚ) ≤ (N : ℚ) + 1 - 1 / e := by linarith
    have hmem2 : (N : ℚ) + 1 - 1 / e < (N : ℚ) + 1 := by linarith
    have htr : ratTruncZ ((N : ℚ) + 1 - 1 / e) = N := ratTruncZ_int_mem hN hmem1 hmem2
    show rustAsUsize ((ratTrunc ((N : ℚ) + 1 - 1 / e) + 1 - ((N : ℚ) + 1 - 1 / e)) * e) = 1
    rw [ratTrunc, htr]
    have harg : ((N : ℚ) + 1 - ((N : ℚ) + 1 - 1 / e)) * e = 1 := by
      field_simp
    rw [show ((N : ℤ) : ℚ) + 1 - ((N : ℚ) + 1 - 1 / e) = (N : ℚ) + 1 - ((N : ℚ) + 1 - 1 / e)
      by norm_num, harg, rustAsUsize_one]
  · intro t N hN c c' h1 h2 h3
    have h0 : (0 : ℚ) ≤ (N : ℚ) := by exact_mod_cast hN
    have htc : ratTruncZ c.lat = N :=
      ratTruncZ_int_mem hN h1 (lt_of_le_of_lt h2 h3)
    have htc' : ratTruncZ c'.lat = N :=
      ratTruncZ_int_mem hN (le_trans h1 h2) h3
    show rustAsUsize ((ratTrunc c'.lat + 1 - c'.lat) * (t.resolution.extent : ℚ))
      ≤ rustAsUsize ((ratTrunc c.lat + 1 - c.lat) * (t.resolution.extent : ℚ))
    rw [ratTrunc, ratTrunc, htc, htc']
    have hposext : (0 : ℚ) ≤ (t.resolution.extent : ℚ) := by positivity
    apply rustAsUsize_mono
    · have : (0 : ℚ) ≤ (N : ℚ) + 1 - c'.lat := by linarith
      exact mul_nonneg this hposext
    · apply mul_le_mul_of_nonneg_right _ hposext
      linarith
  · intro t N hN c h1 h2
    have htc : ratTruncZ c.lat = N := ratTruncZ_int_mem hN (le_of_lt h1) h2
    show rustAsUsize ((ratTrunc c.lat + 1 - c.lat) * (t.resolution.extent : ℚ))
      < t.resolution.extent
    rw [ratTrunc, htc]
    have hext : (0 : ℚ) < (t.resolution.extent : ℚ) := by
      exact_mod_cast extent_pos t.resolution
    apply rustAsUsize_lt_of_nonneg_of_lt
    · have : (0 : ℚ) ≤ (N : ℚ) + 1 - c.lat := by linarith
      exact mul_nonneg this (le_of_lt hext)
    · have harg : ((N : ℚ) + 1 - c.lat) < 1 := by linarith
      calc ((N : ℚ) + 1 - c.lat) * (t.resolution.extent : ℚ)
          < 1 * (t.resolution.extent : ℚ) := by
            apply mul_lt_mul_of_pos_right _ hext
            linarith
        _ = (t.resolution.extent : ℚ) := one_mul _

/-- Claim C2, witness for the amended theorem: instantiated on an SRTM3 tile
at `(44, 7)` — western edge gives column `0`, the northern edge gives row
`1201` and a panic, one arc-sample below the edge gives row `1`, and the row
mapping is antitone and in-range strictly inside the cell. -/
theorem claim_c2_witness :
    ((Tile.mk 44 7 .SRTM3 []).get_offset ⟨Rat.divInt 15 2, 7⟩).2 = 0
    ∧ ((Tile.mk 44 7 .SRTM3 []).get_offset ⟨45, Rat.divInt 15 2⟩).1
        = (Tile.mk 44 7 .SRTM3 []).resolution.extent
    ∧ (Tile.mk 44 7 .SRTM3 []).get ⟨45, Rat.divInt 15 2⟩ = .error .panic
    ∧ ((Tile.mk 44 7 .SRTM3 []).get_offset
        ⟨((44 : ℤ) : ℚ) + 1 - 1 / ((Tile.mk 44 7 .SRTM3 []).resolution.extent : ℚ),
         Rat.divInt 15 2⟩).1 = 1
    ∧ ((Tile.mk 44 7 .SRTM3 []).get_offset ⟨Rat.divInt 179 4, 0⟩).1
        ≤ ((Tile.mk 44 7 .SRTM3 []).get_offset ⟨Rat.divInt 89 2, 0⟩).1
    ∧ ((Tile.mk 44 7 .SRTM3 []).get_offset ⟨Rat.divInt 89 2, 0⟩).1
        < (Tile.mk 44 7 .SRTM3 []).resolution.extent := by
  refine ⟨?_, ?_, ?_, ?_, ?_, ?_⟩
  · exact claim_c2.1 (Tile.mk 44 7 .SRTM3 []) ⟨Rat.divInt 15 2, 7⟩
      (by norm_num [ratTrunc, ratTruncZ, ratFloorZ_eq_floor, ratCeilZ_eq_neg_floor])
  · exact claim_c2.2.1 (Tile.mk 44 7 .SRTM3 []) ⟨45, Rat.divInt 15 2⟩
      (by norm_num [ratTrunc, ratTruncZ, ratFloorZ_eq_floor, ratCeilZ_eq_neg_floor])
  · exact claim_c2.2.2.1 (Tile.mk 44 7 .SRTM3 []) ⟨45, Rat.divInt 15 2⟩ 45 7
      (by norm_num [ratTrunc, ratTruncZ, ratFloorZ_eq_floor, ratCeilZ_eq_neg_floor])
      (by decide) (by decide) (by decide)
  · exact claim_c2.2.2.2.1 (Tile.mk 44 7 .SRTM3 []) 44 (by decide) (Rat.divInt 15 2)
  · exact claim_c2.2.2.2.2.1 (Tile.mk 44 7 .SRTM3 []) 44 (by decide)
      ⟨Rat.divInt 89 2, 0⟩ ⟨Rat.divInt 179 4, 0⟩
      (by norm_num [Rat.divInt_eq_div]) (by norm_num [Rat.divInt_eq_div])
      (by norm_num [Rat.divInt_eq_div])
  · exact claim_c2.2.2.2.2.2 (Tile.mk 44 7 .SRTM3 []) 44 (by decide)
      ⟨Rat.divInt 89 2, 0⟩
      (by norm_num [Rat.divInt_eq_div]) (by norm_num [Rat.divInt_eq_div])

/-- Claim C3, counterexample: a tile whose stored corner latitude is `-99`
(loadable from a stem such as `S99E015`) holding the sentinel `-9999` at the
computed index makes `Tile::get` panic inside the diagnostic (at
`Coord::new(-99, 15)`) instead of returning no data. -/
theorem claim_c3_counterexample :
    (Tile.mk (-99) 15 .SRTM3 [-9999]).get ⟨Rat.divInt 108089 2402, 15⟩
      = .error .panic
    ∧ (Except.error RtError.panic : Except RtError (Option ℤ)) ≠ .ok none := by
  refine ⟨?_, by decide⟩
  have h1 : (⟨Rat.divInt 108089 2402, 15⟩ : Coord).trunc = some (44, 15) := by
    decide
  have h2 : (Tile.mk (-99) 15 .SRTM3 [-9999]).get_offset
      ⟨Rat.divInt 108089 2402, 15⟩ = (0, 0) := by
    norm_num [Tile.get_offset, Tile.get_origin, ratTrunc, ratTruncZ,
      Resolution.extent, EXTENT, rustAsUsize, ratFloorZ_eq_floor,
      ratCeilZ_eq_neg_floor, USIZE_MAX, Rat.divInt_eq_div] <;> decide
  have h3 : Coord.new ((-99 : ℚ)) ((15 : ℚ)) = none := by
    unfold Coord.new Coord.opt_new
    rw [if_neg (by norm_num)]
  simp only [Tile.get, h1, h2, Tile.get_at_offset, Tile.idx]
  simp [h3, isSentinel, Resolution.extent, EXTENT]
  decide

/-- Claim C3, amended: a successfully retrieved sample equal to `-9999` or
`i16::MIN` makes `Tile::get` return no data provided the tile's stored
corner is a valid coordinate — the diagnostic evaluates
`Coord::new(latitude, longitude)`, which panics for an out-of-range corner —
and any other retrieved sample is returned as is; a sentinel value is never
returned to the caller as an elevation. -/
theorem claim_c3 :
    (∀ (t : Tile) (c : Coord) (v : ℤ), t.get c = .ok (some v) →
      v ≠ -9999 ∧ v ≠ -32768)
    ∧ (∀ (t : Tile) (c : Coord) (la lo e : ℤ),
        -90 ≤ t.latitude → t.latitude ≤ 90 →
        -180 ≤ t.longitude → t.longitude ≤ 180 →
        c.trunc = some (la, lo) → t.latitude ≤ la → t.longitude ≤ lo →
        (t.get_offset c).2 < t.resolution.extent →
        (t.get_offset c).1 < t.resolution.extent →
        t.data.get? ((t.get_offset c).1 * t.resolution.extent + (t.get_offset c).2)
          = some e →
        (((e = -9999 ∨ e = -32768) → t.get c = .ok none)
          ∧ (e ≠ -9999 → e ≠ -32768 → t.get c = .ok (some e))))
    ∧ (∀ (t : Tile) (c : Coord) (la lo e : ℤ),
        ¬ (-90 ≤ t.latitude ∧ t.latitude ≤ 90
            ∧ -180 ≤ t.longitude ∧ t.longitude ≤ 180) →
        c.trunc = some (la, lo) → t.latitude ≤ la → t.longitude ≤ lo →
        (t.get_offset c).2 < t.resolution.extent →
        (t.get_offset c).1 < t.resolution.extent →
        t.data.get? ((t.get_offset c).1 * t.resolution.extent + (t.get_offset c).2)
          = some e →
        (e = -9999 ∨ e = -32768) → t.get c = .error .panic) := by
  refine ⟨?_, ?_, ?_⟩
  · intro t c v h
    unfold Tile.get at h
    rcases htr : c.trunc with _ | ⟨la, lo⟩
    · simp only [htr] at h
      cases h
    · simp only [htr] at h
      split_ifs at h
      rcases hga : t.get_at_offset (t.get_offset c).2 (t.get_offset c).1 with e' | elev
      · simp only [hga] at h
        cases h
      · simp only [hga] at h
        split_ifs at h with hs
        · rcases hnew : Coord.new ((t.latitude : ℤ) : ℚ) ((t.longitude : ℤ) : ℚ)
            with _ | corner
          · simp only [hnew] at h
            cases h
          · simp only [hnew] at h
            rcases hfn : corner.get_filename with _ | s
            · simp only [hfn] at h
              cases h
            · simp only [hfn] at h
              simp at h
        · rcases elev with _ | w
          · cases h
          · simp only [Except.ok.injEq, Option.some.injEq] at h
            subst h
            simpa [isSentinel, not_or] using hs
  · intro t c la lo e hb1 hb2 hb3 hb4 htr hla hlo hcol hrow hget
    have hga : t.get_at_offset (t.get_offset c).2 (t.get_offset c).1 =
        .ok (t.data.get?
          ((t.get_offset c).1 * t.resolution.extent + (t.get_offset c).2)) := by
      unfold Tile.get_at_offset Tile.idx
      rw [if_pos ⟨hcol, hrow⟩]
      rfl
    constructor
    · intro hsent
      have hs : isSentinel e = true := by
        simp only [isSentinel, Bool.or_eq_true, beq_iff_eq]
        exact hsent
      unfold Tile.get
      simp only [htr]
      rw [if_neg (not_not_intro hla), if_neg (not_not_intro hlo)]
      have hnew := corner_new_eq hb1 hb2 hb3 hb4
      obtain ⟨s, hsfn⟩ := corner_filename_ex hb1 hb2 hb3 hb4
      simp only [hga, hget]
      rw [if_pos hs]
      simp only [hnew, hsfn]
    · intro hne1 hne2
      have hs : isSentinel e = false := by
        simp [isSentinel, hne1, hne2]
      unfold Tile.get
      simp only [htr]
      rw [if_neg (not_not_intro hla), if_neg (not_not_intro hlo)]
      simp only [hga, hget]
      rw [if_neg (by simp [hs])]
  · intro t c la lo e hnb htr hla hlo hcol hrow hget hsent
    have hga : t.get_at_offset (t.get_offset c).2 (t.get_offset c).1 =
        .ok (t.data.get?
          ((t.get_offset c).1 * t.resolution.extent + (t.get_offset c).2)) := by
      unfold Tile.get_at_offset Tile.idx
      rw [if_pos ⟨hcol, hrow⟩]
      rfl
    have hs : isSentinel e = true := by
      simp only [isSentinel, Bool.or_eq_true, beq_iff_eq]
      exact hsent
    have hnew := corner_new_none hnb
    unfold Tile.get
    simp only [htr]
    rw [if_neg (not_not_intro hla), if_neg (not_not_intro hlo)]
    simp only [hga, hget]
    rw [if_pos hs]
    simp only [hnew]

/-- Claim C3, witness for the amended theorem: an SRTM3 tile at `(44, 15)`
holding the sentinel `-9999` at index 0 returns no data, and one holding
`300` returns `300`, for a coordinate half a sample below the northern edge
at the western edge. -/
theorem claim_c3_witness :
    (Tile.mk 44 15 .SRTM3 [-9999]).get ⟨Rat.divInt 108089 2402, 15⟩ = .ok none
    ∧ (Tile.mk 44 15 .SRTM3 [300]).get ⟨Rat.divInt 108089 2402, 15⟩
        = .ok (some 300) := by
  constructor
  · exact ((claim_c3.2.1 (Tile.mk 44 15 .SRTM3 [-9999]) ⟨Rat.divInt 108089 2402, 15⟩
      44 15 (-9999) (by decide) (by decide) (by decide) (by decide)
      (by decide) (by decide) (by decide)
      (by norm_num [Tile.get_offset, Tile.get_origin, ratTrunc, ratTruncZ, rustAsUsize,
        ratFloorZ_eq_floor, ratCeilZ_eq_neg_floor, USIZE_MAX, Rat.divInt_eq_div,
        Resolution.extent, EXTENT])
      (by norm_num [Tile.get_offset, Tile.get_origin, ratTrunc, ratTruncZ, rustAsUsize,
        ratFloorZ_eq_floor, ratCeilZ_eq_neg_floor, USIZE_MAX, Rat.divInt_eq_div,
        Resolution.extent, EXTENT])
      (by norm_num [Tile.get_offset, Tile.get_origin, ratTrunc, ratTruncZ, rustAsUsize,
        ratFloorZ_eq_floor, ratCeilZ_eq_neg_floor, USIZE_MAX, Rat.divInt_eq_div,
        Resolution.extent, EXTENT])).1 (Or.inl rfl))
  · exact ((claim_c3.2.1 (Tile.mk 44 15 .SRTM3 [300]) ⟨Rat.divInt 108089 2402, 15⟩
      44 15 300 (by decide) (by decide) (by decide) (by decide)
      (by decide) (by decide) (by decide)
      (by norm_num [Tile.get_offset, Tile.get_origin, ratTrunc, ratTruncZ, rustAsUsize,
        ratFloorZ_eq_floor, ratCeilZ_eq_neg_floor, USIZE_MAX, Rat.divInt_eq_div,
        Resolution.extent, EXTENT])
      (by norm_num [Tile.get_offset, Tile.get_origin, ratTrunc, ratTruncZ, rustAsUsize,
        ratFloorZ_eq_floor, ratCeilZ_eq_neg_floor, USIZE_MAX, Rat.divInt_eq_div,
        Resolution.extent, EXTENT])
      (by norm_num [Tile.get_offset, Tile.get_origin, ratTrunc, ratTruncZ, rustAsUsize,
        ratFloorZ_eq_floor, ratCeilZ_eq_neg_floor, USIZE_MAX, Rat.divInt_eq_div,
        Resolution.extent, EXTENT])).2 (by decide) (by decide))

lemma decodePairs_length : ∀ l : List ℕ, (decodePairs l).length = l.length / 2
  | [] => by simp [decodePairs]
  | [_] => by simp [decodePairs]
  | _ :: _ :: rest => by
    have ih := decodePairs_length rest
    simp only [decodePairs, List.length_cons, ih]
    omega

lemma parse_hgt_ok_length {bytes : List ℕ} {res : Resolution} {data : List ℤ}
    (h : Tile.parse_hgt bytes res = .ok data) : data.length = res.total_len := by
  unfold Tile.parse_hgt at h
  split_ifs at h with hlen
  simp only [Except.ok.injEq] at h
  subst h
  rw [decodePairs_length, List.length_take]
  omega

/-- Claim C6, counterexample: the 7-byte non-ASCII stem `"é35E13"` makes
`from_file` panic on a char-boundary violation in the byte slice
`desc[1..3]` instead of returning the `ParseLatLong` error the claim
requires for an invalid stem. -/
theorem claim_c6_counterexample :
    Tile.from_file ⟨true, true, 2884802, "é35E13".toList, []⟩ = .error .panic
    ∧ (Except.error FfError.panic : Except FfError Tile)
        ≠ .error (.err .ParseLatLong) := by
  constructor
  · decide
  · decide

/-- Claim C6, amended: `from_file` either returns a fully populated tile
whose data length equals `total_len`, or fails; the failure kinds follow the
staged order — `NotFound` when the open fails, `Filesize` when the metadata
is unavailable or the length matches no resolution, `ParseLatLong` when the
stem parser returns its error, `Read` when decoding fails on a short file —
except that certain 7-byte non-ASCII stems make the stem parser panic on a
byte-slice boundary violation, and that panic unwinds out of `from_file`
instead of producing `ParseLatLong`. -/
theorem claim_c6 :
    (∀ (f : HgtFile) (t : Tile), Tile.from_file f = .ok t →
      t.data.length = t.resolution.total_len)
    ∧ (∀ f : HgtFile, Tile.from_file f = .error (.err .NotFound) ↔ ¬ f.openOk)
    ∧ (∀ f : HgtFile, Tile.from_file f = .error (.err .Filesize) ↔
        (f.openOk ∧ (¬ f.metaOk ∨ Resolution.tryFrom f.byteLen = .error ())))
    ∧ (∀ f : HgtFile, Tile.from_file f = .error (.err .ParseLatLong) ↔
        (f.openOk ∧ f.metaOk ∧ (∃ res, Resolution.tryFrom f.byteLen = .ok res)
          ∧ get_lat_lon f.stem = .error .err))
    ∧ (∀ f : HgtFile, Tile.from_file f = .error .panic ↔
        (f.openOk ∧ f.metaOk ∧ (∃ res, Resolution.tryFrom f.byteLen = .ok res)
          ∧ get_lat_lon f.stem = .error .panic))
    ∧ (∀ f : HgtFile, Tile.from_file f = .error (.err .Read) ↔
        (f.openOk ∧ f.metaOk ∧ ∃ res, Resolution.tryFrom f.byteLen = .ok res
          ∧ (∃ p, get_lat_lon f.stem = .ok p)
          ∧ Tile.parse_hgt f.bytes res = .error ())) := by
  refine ⟨?_, ?_, ?_, ?_, ?_, ?_⟩
  · intro f t
    unfold Tile.from_file
    split_ifs with h1 h2
    · rcases hres : Resolution.tryFrom f.byteLen with u | res
      · simp [hres]
      · rcases hll : get_lat_lon f.stem with sf | ⟨la, lo⟩
        · cases sf <;> simp [hres, hll]
        · rcases hph : Tile.parse_hgt f.bytes res with u | data
          · simp [hres, hll, hph]
          · simp only [hres, hll, hph, Except.ok.injEq]
            intro h
            subst h
            exact parse_hgt_ok_length hph
    · simp
    · simp
  · intro f
    unfold Tile.from_file
    split_ifs with h1 h2
    · rcases hres : Resolution.tryFrom f.byteLen with u | res
      · simp [h1, h2, hres]
      · rcases hll : get_lat_lon f.stem with sf | ⟨la, lo⟩
        · cases sf <;> simp [h1, h2, hres, hll]
        · rcases hph : Tile.parse_hgt f.bytes res with u | data
          · simp [h1, h2, hres, hll, hph]
          · simp [h1, h2, hres, hll, hph]
    · simp [h1, h2]
    · simp [h1]
  · intro f
    unfold Tile.from_file
    split_ifs with h1 h2
    · rcases hres : Resolution.tryFrom f.byteLen with u | res
      · simp [h1, h2, hres]
      · rcases hll : get_lat_lon f.stem with sf | ⟨la, lo⟩
        · cases sf <;> simp [h1, h2, hres, hll]
        · rcases hph : Tile.parse_hgt f.bytes res with u | data
          · simp [h1, h2, hres, hll, hph]
          · simp [h1, h2, hres, hll, hph]
    · simp [h1, h2]
    · simp [h1]
  · intro f
    unfold Tile.from_file
    split_ifs with h1 h2
    · rcases hres : Resolution.tryFrom f.byteLen with u | res
      · simp [h1, h2, hres]
      · rcases hll : get_lat_lon f.stem with sf | ⟨la, lo⟩
        · cases sf <;> simp [h1, h2, hres, hll]
        · rcases hph : Tile.parse_hgt f.bytes res with u | data
          · simp [h1, h2, hres, hll, hph]
          · simp [h1, h2, hres, hll, hph]
    · simp [h1, h2]
    · simp [h1]
  · intro f
    unfold Tile.from_file
    split_ifs with h1 h2
    · rcases hres : Resolution.tryFrom f.byteLen with u | res
      · simp [h1, h2, hres]
      · rcases hll : get_lat_lon f.stem with sf | ⟨la, lo⟩
        · cases sf <;> simp [h1, h2, hres, hll]
        · rcases hph : Tile.parse_hgt f.bytes res with u | data
          · simp [h1, h2, hres, hll, hph]
          · simp [h1, h2, hres, hll, hph]
    · simp [h1, h2]
    · simp [h1]
  · intro f
    unfold Tile.from_file
    split_ifs with h1 h2
    · rcases hres : Resolution.tryFrom f.byteLen with u | res
      · simp [h1, h2, hres]
      · rcases hll : get_lat_lon f.stem with sf | ⟨la, lo⟩
        · cases sf <;> simp [h1, h2, hres, hll]
        · rcases hph : Tile.parse_hgt f.bytes res with u | data
          · simp [h1, h2, hres, hll, hph]
          · simp [h1, h2, hres, hll, hph]
    · simp [h1, h2]
    · simp [h1]

lemma parse_hgt_replicate : Tile.parse_hgt (List.replicate 2884802 0) .SRTM3
    = .ok (decodePairs (List.replicate 2884802 0)) := by
  unfold Tile.parse_hgt
  rw [List.length_replicate, if_neg (by decide)]
  rw [show Resolution.SRTM3.total_len * 2 = 2884802 from by decide]
  rw [List.take_replicate, Nat.min_self]

lemma from_file_ok {f : HgtFile} {res : Resolution} {la lo : ℤ} {data : List ℤ}
    (h1 : f.openOk = true) (h2 : f.metaOk = true)
    (hres : Resolution.tryFrom f.byteLen = .ok res)
    (hll : get_lat_lon f.stem = .ok (la, lo))
    (hph : Tile.parse_hgt f.bytes res = .ok data) :
    Tile.from_file f = .ok (Tile.new la lo res data) := by
  unfold Tile.from_file
  rw [if_neg (by simp [h1]), if_neg (by simp [h2])]
  simp only [hres, hll, hph]

/-- Claim C6, witness: a well-formed SRTM3 file (byte length `2884802`, stem
`"N35E138"`, all-zero body) loads successfully into a fully populated tile. -/
theorem claim_c6_witness :
    ∃ t : Tile, Tile.from_file
        ⟨true, true, 2884802, "N35E138".toList, List.replicate 2884802 0⟩ = .ok t
      ∧ t.data.length = t.resolution.total_len := by
  have hok : Tile.from_file
      ⟨true, true, 2884802, "N35E138".toList, List.replicate 2884802 0⟩
      = .ok (Tile.new 35 138 .SRTM3 (decodePairs (List.replicate 2884802 0))) :=
    from_file_ok rfl rfl
      (show Resolution.tryFrom 2884802 = .ok .SRTM3 by decide)
      (show get_lat_lon ("N35E138".toList) = .ok (35, 138) by decide)
      parse_hgt_replicate
  exact ⟨_, hok, claim_c6.1 _ _ hok⟩

/-- Claim C4: resolution inference from the file byte length maps exactly
`2884802` to SRTM3, `25934402` to SRTM1 and `103708802` to SRTM05; every
other length is an error; `extent` is `1201` / `3601` / `7201` and
`total_len` is the square of `extent`. -/
theorem claim_c4 :
    (∀ n : ℕ, Resolution.tryFrom n =
      (if n = 103708802 then .ok .SRTM05
       else if n = 25934402 then .ok .SRTM1
       else if n = 2884802 then .ok .SRTM3
       else .error ()))
    ∧ Resolution.SRTM3.extent = 1201
    ∧ Resolution.SRTM1.extent = 3601
    ∧ Resolution.SRTM05.extent = 7201
    ∧ (∀ r : Resolution, r.total_len = r.extent ^ 2)
    ∧ Resolution.SRTM3.total_len = 1201 ^ 2
    ∧ Resolution.SRTM1.total_len = 3601 ^ 2
    ∧ Resolution.SRTM05.total_len = 7201 ^ 2 := by
  refine ⟨fun n => ?_, by decide, by decide, by decide, fun r => rfl,
    by decide, by decide, by decide⟩
  simp only [Resolution.tryFrom,
    show Resolution.SRTM05.total_len * 2 = 103708802 by decide,
    show Resolution.SRTM1.total_len * 2 = 25934402 by decide,
    show Resolution.SRTM3.total_len * 2 = 2884802 by decide]

/-- Claim C7: coordinate construction succeeds exactly on
`lat ∈ [-90, 90]` and `lon ∈ [-180, 180]` (boundaries included);
`opt_new` returns `none` exactly when out of range, `new` fails the same
way, and the derived operations `with_lat`, `with_lon`, `add_to_lat`,
`add_to_lon` fail exactly when their resulting pair is out of range. -/
theorem claim_c7 :
    (∀ la lo : ℚ, Coord.opt_new la lo = some ⟨la, lo⟩ ↔
      (-90 ≤ la ∧ la ≤ 90 ∧ -180 ≤ lo ∧ lo ≤ 180))
    ∧ (∀ la lo : ℚ, Coord.opt_new la lo = none ↔
      ¬ (-90 ≤ la ∧ la ≤ 90 ∧ -180 ≤ lo ∧ lo ≤ 180))
    ∧ (∀ la lo : ℚ, Coord.new la lo = Coord.opt_new la lo)
    ∧ (∀ (c : Coord) (la : ℚ), (c.with_lat la).isSome ↔
      (-90 ≤ la ∧ la ≤ 90 ∧ -180 ≤ c.lon ∧ c.lon ≤ 180))
    ∧ (∀ (c : Coord) (lo : ℚ), (c.with_lon lo).isSome ↔
      (-90 ≤ c.lat ∧ c.lat ≤ 90 ∧ -180 ≤ lo ∧ lo ≤ 180))
    ∧ (∀ (c : Coord) (d : ℚ), (c.add_to_lat d).isSome ↔
      (-90 ≤ c.lat + d ∧ c.lat + d ≤ 90 ∧ -180 ≤ c.lon ∧ c.lon ≤ 180))
    ∧ (∀ (c : Coord) (d : ℚ), (c.add_to_lon d).isSome ↔
      (-90 ≤ c.lat ∧ c.lat ≤ 90 ∧ -180 ≤ c.lon + d ∧ c.lon + d ≤ 180)) := by
  have hbase : ∀ la lo : ℚ, (Coord.opt_new la lo).isSome ↔
      (-90 ≤ la ∧ la ≤ 90 ∧ -180 ≤ lo ∧ lo ≤ 180) := by
    intro la lo
    unfold Coord.opt_new
    split_ifs with h <;> simp [h]
  refine ⟨?_, ?_, fun la lo => rfl, ?_, ?_, ?_, ?_⟩
  · intro la lo
    unfold Coord.opt_new
    split_ifs with h <;> simp [h]
  · intro la lo
    unfold Coord.opt_new
    split_ifs with h <;> simp [h]
  · intro c la
    exact hbase la c.lon
  · intro c lo
    exact hbase c.lat lo
  · intro c d
    exact hbase (c.lat + d) c.lon
  · intro c d
    exact hbase c.lat (c.lon + d)

/-- Claim C10: the tuple conversion builds a `Coord` from the raw values
with no range validation, such a coordinate is accepted by `Tile::get`, and
`Coord::trunc`'s unchecked conversion is undefined behaviour outside the
`i8` / `i16` representable range — shown at `(200.5, 400.5)`, which
`opt_new` rejects, `fromPair` accepts, `trunc` hits undefined behaviour on,
and `Tile::get` propagates that undefined behaviour for. -/
theorem claim_c10 :
    (∀ la lo : ℚ, (Coord.fromPair la lo).lat = la ∧ (Coord.fromPair la lo).lon = lo)
    ∧ Coord.opt_new (Rat.divInt 401 2) (Rat.divInt 801 2) = none
    ∧ (Coord.fromPair (Rat.divInt 401 2) (Rat.divInt 801 2)).trunc = none
    ∧ (Tile.mk 0 0 .SRTM3 []).get
        (Coord.fromPair (Rat.divInt 401 2) (Rat.divInt 801 2)) = .error .ub :=
  ⟨fun _ _ => ⟨rfl, rfl⟩, by decide, by decide, by decide⟩

/-- Claim C5, counterexample: the stem `"A35B138"` does not match
`[NS]\d{2}[EW]\d{3}` (its sign letters are `A` and `B`), yet the stem
parser accepts it, reading both signs as negative. -/
theorem claim_c5_counterexample :
    get_lat_lon ("A35B138".toList) = .ok (-35, -138) := by decide

/-- Claim C5, amended: for an ASCII stem, parsing fails exactly when the
length is not 7 or one of the two numeric fields (positions 1-2 as `i8`,
positions 4-6 as `i16`, Rust integer grammar) fails to parse; the letters
at positions 0 and 3 are never validated — `'N'` / `'E'` select the
positive sign and any other character the negative sign. -/
theorem claim_c5 (desc : List Char) (hascii : desc.all (fun c => c.toNat < 128)) :
    ((get_lat_lon desc).isOk ↔
      (desc.length = 7 ∧ (parseI8 ((desc.drop 1).take 2)).isSome
        ∧ (parseI16 ((desc.drop 4).take 3)).isSome))
    ∧ (∀ la lo : ℤ, desc.length = 7 →
        parseI8 ((desc.drop 1).take 2) = some la →
        parseI16 ((desc.drop 4).take 3) = some lo →
        get_lat_lon desc = .ok ((if desc.get? 0 = some 'N' then 1 else -1) * la,
          (if desc.get? 3 = some 'E' then 1 else -1) * lo)) := by
  have hulen := utf8Len_ascii hascii
  constructor
  · unfold get_lat_lon
    rw [hulen]
    by_cases hlen : desc.length = 7
    · rw [if_neg (by simp [hlen])]
      obtain ⟨ch0, hch0⟩ : ∃ c0, desc.get? 0 = some c0 := by
        cases desc with
        | nil => simp at hlen
        | cons a l => exact ⟨a, rfl⟩
      have hbs1 : byteSlice desc 1 3 = some ((desc.drop 1).take 2) :=
        byteSlice_ascii desc 1 3 hascii (by omega) (by omega)
      simp only [hch0, hbs1]
      rcases h8 : parseI8 ((desc.drop 1).take 2) with _ | la
      · simp [Except.isOk, Except.toBool, h8]
      · have hch3 : desc.get? 3 = some (desc.get ⟨3, by omega⟩) :=
          List.get?_eq_get (by omega)
        have hbs2 : byteSlice desc 4 7 = some ((desc.drop 4).take 3) :=
          byteSlice_ascii desc 4 7 hascii (by omega) (by omega)
        simp only [h8, hch3, hbs2]
        rcases h16 : parseI16 ((desc.drop 4).take 3) with _ | lo
        · simp [Except.isOk, Except.toBool, h16]
        · simp [Except.isOk, Except.toBool, h8, h16, hlen]
    · rw [if_pos (by simpa using hlen)]
      simp [Except.isOk, Except.toBool, hlen]
  · intro la lo hlen h8 h16
    unfold get_lat_lon
    rw [hulen, if_neg (by simp [hlen])]
    obtain ⟨ch0, hch0⟩ : ∃ c0, desc.get? 0 = some c0 := by
      cases desc with
      | nil => simp at hlen
      | cons a l => exact ⟨a, rfl⟩
    have hch3 : desc.get? 3 = some (desc.get ⟨3, by omega⟩) :=
      List.get?_eq_get (by omega)
    have hbs1 : byteSlice desc 1 3 = some ((desc.drop 1).take 2) :=
      byteSlice_ascii desc 1 3 hascii (by omega) (by omega)
    have hbs2 : byteSlice desc 4 7 = some ((desc.drop 4).take 3) :=
      byteSlice_ascii desc 4 7 hascii (by omega) (by omega)
    simp only [hch0, hbs1, h8, hch3, hbs2, h16]
    simp [hch0, hch3]

/-- Claim C5, witness for the amended theorem: instantiated at the valid
stem `"N35E138"`. -/
theorem claim_c5_witness :
    (get_lat_lon ("N35E138".toList)).isOk ∧
    get_lat_lon ("N35E138".toList) = .ok (35, 138) := by
  refine ⟨(claim_c5 ("N35E138".toList) (by decide)).1.mpr
    ⟨by decide, by decide, by decide⟩, ?_⟩
  have h := (claim_c5 ("N35E138".toList) (by decide)).2 35 138
    (by decide) (by decide) (by decide)
  simpa using h

/-- Claim C8: `get_filename` produces the canonical `.hgt` name: sign letter
`N` exactly when the latitude is at least zero and `E` exactly when the
longitude is at least zero, zero-padded truncated absolute degree values of
widths 2 and 3, and the four listed sample coordinates give exactly the
listed names. -/
theorem claim_c8 :
    (∀ la lo : ℚ, -90 ≤ la → la ≤ 90 → -180 ≤ lo → lo ≤ 180 →
      Coord.get_filename ⟨la, lo⟩ = some (canonicalFilename ⟨la, lo⟩))
    ∧ Coord.get_filename ⟨45, Rat.divInt 7 5⟩ = some ("N45E001.hgt".toList)
    ∧ Coord.get_filename ⟨Rat.divInt (-23) 10, 87⟩ = some ("S02E087.hgt".toList)
    ∧ Coord.get_filename ⟨35, -7⟩ = some ("N35W007.hgt".toList)
    ∧ Coord.get_filename ⟨Rat.divInt 87235 1000, Rat.divInt 104234423 10000000⟩
        = some ("N87E010.hgt".toList) := by
  refine ⟨?_, by decide, by decide, by decide, by decide⟩
  intro la lo h1 h2 h3 h4
  rw [get_filename_canonical h1 h2 h3 h4]
  rfl

/-- Claim C8, witness for the general part: instantiated at `(45.5, 7.5)`,
whose canonical name evaluates to `"N45E007.hgt"`. -/
theorem claim_c8_witness :
    Coord.get_filename ⟨Rat.divInt 91 2, Rat.divInt 15 2⟩
      = some (canonicalFilename ⟨Rat.divInt 91 2, Rat.divInt 15 2⟩)
    ∧ canonicalFilename ⟨Rat.divInt 91 2, Rat.divInt 15 2⟩ = "N45E007.hgt".toList := by
  refine ⟨claim_c8.1 (Rat.divInt 91 2) (Rat.divInt 15 2)
    (by decide) (by decide) (by decide) (by decide), by decide⟩

/-- Claim C9: for every in-range coordinate, parsing the stem of the
generated file name yields the signed truncated integer degree pair, in all
four sign quadrants; and the stems `"N35E138"` / `"S35W138"` parse to
`(35, 138)` / `(-35, -138)`. -/
theorem claim_c9 :
    (∀ la lo : ℚ, -90 ≤ la → la ≤ 90 → -180 ≤ lo → lo ≤ 180 →
      ∃ fname, Coord.get_filename ⟨la, lo⟩ = some fname
        ∧ get_lat_lon (fileStem fname) = .ok (ratTruncZ la, ratTruncZ lo))
    ∧ get_lat_lon ("N35E138".toList) = .ok (35, 138)
    ∧ get_lat_lon ("S35W138".toList) = .ok (-35, -138) := by
  refine ⟨?_, by decide, by decide⟩
  intro la lo h1 h2 h3 h4
  refine ⟨_, get_filename_canonical h1 h2 h3 h4, ?_⟩
  have hsplit : ((if 0 ≤ la then 'N' else 'S')
      :: (pad2 (ratTruncZ la).natAbs
        ++ (if 0 ≤ lo then 'E' else 'W')
          :: (pad3 (ratTruncZ lo).natAbs ++ ['.', 'h', 'g', 't'])))
      = ((if 0 ≤ la then 'N' else 'S')
        :: (pad2 (ratTruncZ la).natAbs
          ++ (if 0 ≤ lo then 'E' else 'W') :: pad3 (ratTruncZ lo).natAbs))
        ++ ['.', 'h', 'g', 't'] := by
    simp [List.append_assoc]
  rw [hsplit, fileStem_append_hgt]
  exact get_lat_lon_canonical la lo h1 h2 h3 h4

/-- Claim C9, witness: instantiated at `(35.5, 138.5)`, whose generated name
has a stem parsing back to `(35, 138)`. -/
theorem claim_c9_witness :
    ∃ fname, Coord.get_filename ⟨Rat.divInt 71 2, Rat.divInt 277 2⟩ = some fname
      ∧ get_lat_lon (fileStem fname) = .ok (35, 138) := by
  obtain ⟨fname, hf, hp⟩ := claim_c9.1 (Rat.divInt 71 2) (Rat.divInt 277 2)
    (by decide) (by decide) (by decide) (by decide)
  refine ⟨fname, hf, ?_⟩
  rw [hp, show ratTruncZ (Rat.divInt 71 2) = 35 from by decide,
    show ratTruncZ (Rat.divInt 277 2) = 138 from by decide]

end Srtm
